import Mathlib

/-!
Shallow embedding of the background statistics recalculation scheduler
of `dict/dict0stats_bg.cc`: the recalc pool and its operations, the
modification-counter threshold logic of `dict_stats_update_if_needed`,
the background worker pass (`dict_stats_process_entry_from_recalc_pool`)
and loop (`dict_stats_func`), and the lifecycle controller
(`dict_stats_start` / `dict_stats_shutdown` / `dict_stats_deinit`).

Machine integers (`table_id_t`, `ulonglong` counters and row counts,
`time_t` timestamps) are modelled as `Nat`; none of the verified
operations can overflow their 64-bit source types on the inputs the
claims quantify over, and all divisions are the same truncating
unsigned divisions as in the source.
-/

/-- Table identifier (`table_id_t`), an opaque totally ordered value. -/
abbrev table_id_t := Nat

/-- Minimum time interval between stats recalc for a given table, in
seconds (`MIN_RECALC_INTERVAL`). -/
def MIN_RECALC_INTERVAL : Nat := 10

/-- `dict_stats_recalc_pool_add(table, schedule_dict_stats_task)`:
if the id is already in the pool, return with the pool unchanged;
otherwise push the id at the back, and if the pool's size is 1 after
the push and the flag is set, request `dict_stats_schedule_now()`.
Returns the new pool together with whether `dict_stats_schedule_now`
was requested. -/
def dict_stats_recalc_pool_add (pool : List table_id_t) (id : table_id_t)
    (schedule_dict_stats_task : Bool) : List table_id_t × Bool :=
  if id ∈ pool then
    (pool, false)
  else
    let pool2 := pool ++ [id]
    (pool2, decide (pool2.length = 1) && schedule_dict_stats_task)

/-- `dict_stats_recalc_pool_get(id)`: if the pool is empty return
`false` leaving the out-parameter `id` unmodified; otherwise write the
head element into `id`, erase it from the pool, and return `true`.
The result is `(return value, value of the out-parameter, new pool)`. -/
def dict_stats_recalc_pool_get (pool : List table_id_t) (id : table_id_t) :
    Bool × table_id_t × List table_id_t :=
  match pool with
  | [] => (false, id, [])
  | x :: rest => (true, x, rest)

/-- `dict_stats_recalc_pool_del(table)`: erase the first (by the
uniqueness invariant, only) occurrence of the id from the pool. -/
def dict_stats_recalc_pool_del (pool : List table_id_t) (id : table_id_t) :
    List table_id_t :=
  pool.erase id

/-- A sequence of `dict_stats_recalc_pool_add` calls, applied in order;
each call carries the id and the `schedule_dict_stats_task` flag. -/
def recalc_pool_add_seq (ops : List (table_id_t × Bool))
    (pool : List table_id_t) : List table_id_t :=
  ops.foldl (fun p op => (dict_stats_recalc_pool_add p op.1 op.2).1) pool

/-- The per-table state read and written by `dict_stats_update_if_needed`:
`table->stat_initialized`, `table->stat_modified_counter`,
`dict_table_get_n_rows(table)`, `table->name.is_temporary()`,
`dict_stats_is_persistent_enabled(table)` and
`dict_stats_auto_recalc_is_enabled(table)`. -/
structure TableStats where
  id : table_id_t
  stat_initialized : Bool
  stat_modified_counter : Nat
  n_rows : Nat
  is_temporary : Bool
  persistent_enabled : Bool
  auto_recalc_enabled : Bool
  deriving Repr, DecidableEq

/-- Which action `dict_stats_update_if_needed` took: nothing, an enqueue
into the recalc pool (persistent mode), or a synchronous
`dict_stats_update(table, DICT_STATS_RECALC_TRANSIENT)` call. -/
inductive UpdAction where
  | noop
  | enqueued
  | syncRecalc
  deriving Repr, DecidableEq

/-- Result of `dict_stats_update_if_needed`: the updated table state, the
updated recalc pool, the action taken, and whether the enqueue fired
`dict_stats_schedule_now`. -/
structure UpdOut where
  table : TableStats
  pool : List table_id_t
  action : UpdAction
  schedNowFired : Bool
  deriving Repr, DecidableEq

/-- The transient-mode threshold of the source:
`ulonglong threshold = 16 + n_rows / 16;` then, when the global
`srv_stats_modified_counter` is nonzero,
`threshold = std::min(srv_stats_modified_counter, threshold)`. -/
def transientThreshold (srv_stats_modified_counter n_rows : Nat) : Nat :=
  let threshold := 16 + n_rows / 16
  if srv_stats_modified_counter ≠ 0 then
    min srv_stats_modified_counter threshold
  else
    threshold

/-- `dict_stats_update_if_needed_func` (with the `WITH_WSREP` suppression
check modelled by the boolean `wsrep_veto`, which is `false` in a
non-replicated build or when the check passes): post-increment the
modification counter, then either (persistent mode) enqueue the table
and zero the counter when `counter > n_rows / 10` and auto recalc is
enabled and replication does not veto, or (transient mode) recompute
transient statistics synchronously — which zeroes the counter — when
`counter > threshold`. -/
def dict_stats_update_if_needed_func (srv_stats_modified_counter : Nat)
    (wsrep_veto : Bool) (t : TableStats) (pool : List table_id_t) : UpdOut :=
  if t.stat_initialized = false then
    ⟨t, pool, .noop, false⟩
  else
    let counter := t.stat_modified_counter
    let t1 : TableStats := { t with stat_modified_counter := counter + 1 }
    let n_rows := t.n_rows
    if t.persistent_enabled = true then
      if t.is_temporary = true then
        ⟨t1, pool, .noop, false⟩
      else if counter > n_rows / 10 ∧ t.auto_recalc_enabled = true then
        if wsrep_veto = true then
          ⟨t1, pool, .noop, false⟩
        else
          let added := dict_stats_recalc_pool_add pool t.id true
          ⟨{ t1 with stat_modified_counter := 0 }, added.1, .enqueued, added.2⟩
      else
        ⟨t1, pool, .noop, false⟩
    else
      let threshold := transientThreshold srv_stats_modified_counter n_rows
      if counter > threshold then
        ⟨{ t1 with stat_modified_counter := 0 }, pool, .syncRecalc, false⟩
      else
        ⟨t1, pool, .noop, false⟩

/-- What the worker observes about a resolved table:
`table->is_accessible()` and `table->stats_last_recalc`. -/
structure TableInfo where
  accessible : Bool
  stats_last_recalc : Nat
  deriving Repr, DecidableEq

/-- The collaborators of the worker pass: `dict_table_open_on_id`
(resolution of an id to a table, `none` when the table was dropped)
and the current `time(NULL)`. -/
structure Env where
  resolve : table_id_t → Option TableInfo
  now : Nat

/-- Observable outcome of one `dict_stats_process_entry_from_recalc_pool`
call: its return value, the pool it leaves behind, the id it recomputed
(if any), the id it re-enqueued because of the throttle (if any), the
`dict_stats_schedule` request it issued in milliseconds (if any), and
whether the re-enqueue fired `dict_stats_schedule_now`. -/
structure PassOut where
  ret : Bool
  pool : List table_id_t
  recomputed : Option table_id_t
  requeued : Option table_id_t
  scheduleMs : Option Nat
  schedNow : Bool
  deriving Repr, DecidableEq

/-- `dict_stats_process_entry_from_recalc_pool`: pop the first id from
the pool (`return false` when the pool is empty); if the id does not
resolve or the table is inaccessible, `goto next_table_id` — pop the
next id; if `difftime(time(NULL), stats_last_recalc)` is below
`MIN_RECALC_INTERVAL`, put the id back with
`dict_stats_recalc_pool_add(table, false)`, request
`dict_stats_schedule(MIN_RECALC_INTERVAL*1000)` and return `false`;
otherwise run `dict_stats_update(table, DICT_STATS_RECALC_PERSISTENT)`
and return `true`. -/
def dict_stats_process_entry_from_recalc_pool (env : Env) :
    List table_id_t → PassOut
  | [] => ⟨false, [], none, none, none, false⟩
  | id :: rest =>
    match env.resolve id with
    | none => dict_stats_process_entry_from_recalc_pool env rest
    | some t =>
      if t.accessible = false then
        dict_stats_process_entry_from_recalc_pool env rest
      else if env.now - t.stats_last_recalc < MIN_RECALC_INTERVAL then
        let added := dict_stats_recalc_pool_add rest id false
        ⟨false, added.1, none, some id, some (MIN_RECALC_INTERVAL * 1000), added.2⟩
      else
        ⟨true, rest, some id, none, none, false⟩

/-- Observable outcome of one `dict_stats_func` timer firing: the final
pool, the ids recomputed (in order), and the number of
`dict_stats_process_entry_from_recalc_pool` calls made. -/
structure RunOut where
  pool : List table_id_t
  recomputed : List table_id_t
  passes : Nat
  deriving Repr, DecidableEq

/-- A pass that returns `true` strictly shrinks the pool: the head was
removed (after possibly discarding unresolvable heads) and nothing was
put back. -/
theorem process_entry_true_shrinks (env : Env) :
    ∀ pool : List table_id_t,
      (dict_stats_process_entry_from_recalc_pool env pool).ret = true →
      (dict_stats_process_entry_from_recalc_pool env pool).pool.length < pool.length := by
  intro pool
  induction pool with
  | nil =>
    intro h
    simp [dict_stats_process_entry_from_recalc_pool] at h
  | cons id rest ih =>
    intro h
    rw [dict_stats_process_entry_from_recalc_pool] at h ⊢
    cases hres : env.resolve id with
    | none =>
      rw [hres] at h
      dsimp only at h ⊢
      exact Nat.lt_succ_of_lt (ih h)
    | some t =>
      rw [hres] at h
      dsimp only at h ⊢
      by_cases hacc : t.accessible = false
      · rw [if_pos hacc] at h ⊢
        exact Nat.lt_succ_of_lt (ih h)
      · rw [if_neg hacc] at h ⊢
        by_cases hthr : env.now - t.stats_last_recalc < MIN_RECALC_INTERVAL
        · rw [if_pos hthr] at h
          simp at h
        · rw [if_neg hthr]
          exact Nat.lt_succ_self rest.length

/-- `dict_stats_func`: `while (dict_stats_process_entry_from_recalc_pool()) {}`
— repeat the pass while it returns `true`.  (The defrag-pool drain that
follows is an external collaborator, outside this model.) -/
def dict_stats_func (env : Env) (pool : List table_id_t) : RunOut :=
  let out := dict_stats_process_entry_from_recalc_pool env pool
  if h : out.ret = true then
    let r := dict_stats_func env out.pool
    ⟨r.pool, out.recomputed.toList ++ r.recomputed, r.passes + 1⟩
  else
    ⟨out.pool, out.recomputed.toList, 1⟩
termination_by pool.length
decreasing_by
  exact process_entry_true_shrinks env pool h

/-- The lifecycle state: whether `dict_stats_timer` is non-null, how many
timers `srv_thread_pool->create_timer` has produced, the
`stats_initialised` flag, and the two pools. -/
structure LifecycleState where
  timer : Bool
  timersCreated : Nat
  stats_initialised : Bool
  recalc_pool : List table_id_t
  defrag_pool : List table_id_t
  deriving Repr, DecidableEq

/-- `dict_stats_start`: under `dict_stats_mutex`, create the timer only
when it does not already exist. -/
def dict_stats_start (s : LifecycleState) : LifecycleState :=
  if s.timer = true then s
  else { s with timer := true, timersCreated := s.timersCreated + 1 }

/-- `dict_stats_shutdown`: under `dict_stats_mutex`, delete the timer
(deleting a null timer is a no-op) and null the handle. -/
def dict_stats_shutdown (s : LifecycleState) : LifecycleState :=
  { s with timer := false }

/-- `dict_stats_init`: create the pool mutex, run `dict_defrag_pool_init`,
set `stats_initialised`. -/
def dict_stats_init (s : LifecycleState) : LifecycleState :=
  { s with stats_initialised := true }

/-- `dict_stats_recalc_pool_deinit`: clear both pools and surrender their
backing buffers. -/
def dict_stats_recalc_pool_deinit (s : LifecycleState) : LifecycleState :=
  { s with recalc_pool := [], defrag_pool := [] }

/-- `dict_stats_deinit`: return immediately when `stats_initialised` is
not set; otherwise clear the flag, clear both pools, destroy the pool
mutex. -/
def dict_stats_deinit (s : LifecycleState) : LifecycleState :=
  if s.stats_initialised = false then s
  else { dict_stats_recalc_pool_deinit s with stats_initialised := false }

/-! ## Helper lemmas shared by several claims -/

/-- After an `add` of `id`, the id is in the pool (it was either already
present or was just pushed at the back). -/
theorem mem_recalc_pool_add_self (pool : List table_id_t) (id : table_id_t)
    (b : Bool) : id ∈ (dict_stats_recalc_pool_add pool id b).1 := by
  unfold dict_stats_recalc_pool_add
  by_cases hmem : id ∈ pool
  · simp [hmem]
  · simp [hmem]

/-- Every element of the pool after an `add` is the added id or an
element of the pool before it. -/
theorem mem_recalc_pool_add (pool : List table_id_t) (id x : table_id_t)
    (b : Bool) (hx : x ∈ (dict_stats_recalc_pool_add pool id b).1) :
    x = id ∨ x ∈ pool := by
  unfold dict_stats_recalc_pool_add at hx
  by_cases hmem : id ∈ pool
  · simp [hmem] at hx
    exact Or.inr hx
  · simp [hmem] at hx
    exact hx.symm

/-- A single `add` preserves the no-duplicates invariant. -/
theorem recalc_pool_add_nodup (pool : List table_id_t) (id : table_id_t)
    (b : Bool) (h : pool.Nodup) :
    ((dict_stats_recalc_pool_add pool id b).1).Nodup := by
  unfold dict_stats_recalc_pool_add
  by_cases hmem : id ∈ pool
  · simpa [hmem]
  · simp [hmem, List.nodup_append, h]

/-- Any sequence of `add` calls preserves the no-duplicates invariant. -/
theorem recalc_pool_add_seq_nodup (ops : List (table_id_t × Bool)) :
    ∀ pool : List table_id_t, pool.Nodup → (recalc_pool_add_seq ops pool).Nodup := by
  induction ops with
  | nil => intro pool h; exact h
  | cons op rest ih =>
    intro pool h
    exact ih _ (recalc_pool_add_nodup pool op.1 op.2 h)

/-- Repeated `add` of an id that is already in the pool changes nothing. -/
theorem recalc_pool_add_seq_replicate_mem (n : Nat) (id : table_id_t)
    (b : Bool) (pool : List table_id_t) (h : id ∈ pool) :
    recalc_pool_add_seq (List.replicate n (id, b)) pool = pool := by
  induction n with
  | zero => rfl
  | succ k ih =>
    have hstep : (dict_stats_recalc_pool_add pool id b).1 = pool := by
      simp [dict_stats_recalc_pool_add, h]
    calc recalc_pool_add_seq (List.replicate (k + 1) (id, b)) pool
        = recalc_pool_add_seq (List.replicate k (id, b))
            (dict_stats_recalc_pool_add pool id b).1 := by
          rw [List.replicate_succ]; rfl
      _ = recalc_pool_add_seq (List.replicate k (id, b)) pool := by rw [hstep]
      _ = pool := ih

/-- C3: for every sequence of `dict_stats_recalc_pool_add` calls the
recalc pool never contains two entries with the same table identifier;
an `add` of an already-present identifier leaves the pool unchanged; and
after `n + 1` adds of the same identifier (with no removals) the pool
contains exactly one instance of it. -/
theorem recalc_pool_no_duplicate_ids (ops : List (table_id_t × Bool))
    (pool : List table_id_t) (id id2 : table_id_t) (b b2 : Bool) (n : Nat)
    (hmem : id ∈ pool) :
    (recalc_pool_add_seq ops []).Nodup
    ∧ (dict_stats_recalc_pool_add pool id b).1 = pool
    ∧ (recalc_pool_add_seq (List.replicate (n + 1) (id2, b2)) []).count id2 = 1 := by
  refine ⟨recalc_pool_add_seq_nodup ops [] List.nodup_nil, ?_, ?_⟩
  · simp [dict_stats_recalc_pool_add, hmem]
  · have h1 : recalc_pool_add_seq (List.replicate (n + 1) (id2, b2)) []
        = recalc_pool_add_seq (List.replicate n (id2, b2)) [id2] := by
      rw [List.replicate_succ]
      simp [recalc_pool_add_seq, dict_stats_recalc_pool_add]
    rw [h1, recalc_pool_add_seq_replicate_mem n id2 b2 [id2] (by simp)]
    simp

/-- C3 witness: a concrete instance of `recalc_pool_no_duplicate_ids`. -/
theorem recalc_pool_no_duplicate_ids_witness :
    (recalc_pool_add_seq [(1, true), (2, true), (1, true)] []).Nodup
    ∧ (dict_stats_recalc_pool_add [5, 6] 5 true).1 = [5, 6]
    ∧ (recalc_pool_add_seq (List.replicate (2 + 1) (9, true)) []).count 9 = 1 :=
  recalc_pool_no_duplicate_ids [(1, true), (2, true), (1, true)] [5, 6] 5 9
    true true 2 (by decide)

/-- C4: the pool is FIFO — adds of distinct `a`, `b`, `c` in that order
produce the pool `[a, b, c]`; successive `get` calls yield `a`, then
`b`, then `c`; and re-adding `a` after it was taken (throttle requeue,
flag `false`) yields the order `[b, c, a]`. -/
theorem recalc_pool_fifo (a b c x0 : table_id_t)
    (hab : a ≠ b) (hac : a ≠ c) (hbc : b ≠ c) :
    (dict_stats_recalc_pool_add
        ((dict_stats_recalc_pool_add
          ((dict_stats_recalc_pool_add [] a true).1) b true).1) c true).1
      = [a, b, c]
    ∧ dict_stats_recalc_pool_get [a, b, c] x0 = (true, a, [b, c])
    ∧ dict_stats_recalc_pool_get [b, c] x0 = (true, b, [c])
    ∧ dict_stats_recalc_pool_get [c] x0 = (true, c, [])
    ∧ (dict_stats_recalc_pool_add [b, c] a false).1 = [b, c, a] := by
  refine ⟨?_, rfl, rfl, rfl, ?_⟩
  · simp [dict_stats_recalc_pool_add, hab.symm, hac.symm, hbc.symm]
  · simp [dict_stats_recalc_pool_add, hab, hac]

/-- C4 witness: a concrete instance of `recalc_pool_fifo`. -/
theorem recalc_pool_fifo_witness :
    (dict_stats_recalc_pool_add
        ((dict_stats_recalc_pool_add
          ((dict_stats_recalc_pool_add [] 1 true).1) 2 true).1) 3 true).1
      = [1, 2, 3]
    ∧ dict_stats_recalc_pool_get [1, 2, 3] 0 = (true, 1, [2, 3])
    ∧ dict_stats_recalc_pool_get [2, 3] 0 = (true, 2, [3])
    ∧ dict_stats_recalc_pool_get [3] 0 = (true, 3, [])
    ∧ (dict_stats_recalc_pool_add [2, 3] 1 false).1 = [2, 3, 1] :=
  recalc_pool_fifo 1 2 3 0 (by decide) (by decide) (by decide)

/-- C5: `dict_stats_recalc_pool_add` requests `dict_stats_schedule_now`
if and only if the pool was empty before the insertion and the
`schedule_dict_stats_task` flag is `true`. -/
theorem recalc_pool_add_schedule_now_iff (pool : List table_id_t)
    (id : table_id_t) (allow : Bool) :
    (dict_stats_recalc_pool_add pool id allow).2 = true
      ↔ pool = [] ∧ allow = true := by
  unfold dict_stats_recalc_pool_add
  by_cases hmem : id ∈ pool
  · simp only [hmem, if_true]
    constructor
    · intro h; simp at h
    · rintro ⟨rfl, -⟩; simp at hmem
  · cases pool with
    | nil => simp
    | cons y ys => simp [hmem]

/-- C5 witness: a concrete instance of `recalc_pool_add_schedule_now_iff`. -/
theorem recalc_pool_add_schedule_now_iff_witness :
    ((dict_stats_recalc_pool_add [] 4 true).2 = true
      ↔ ([] : List table_id_t) = [] ∧ true = true) :=
  recalc_pool_add_schedule_now_iff [] 4 true

/-- C10: `dict_stats_recalc_pool_get` on the empty pool returns `false`,
leaves the out-parameter at whatever value it held before the call, and
leaves the pool empty — no observable effect beyond the `false` return. -/
theorem recalc_pool_get_empty_frame (id0 : table_id_t) :
    dict_stats_recalc_pool_get [] id0 = (false, id0, []) := rfl

/-- C10 witness: a concrete instance of `recalc_pool_get_empty_frame`. -/
theorem recalc_pool_get_empty_frame_witness :
    dict_stats_recalc_pool_get [] 7 = (false, 7, []) :=
  recalc_pool_get_empty_frame 7

/-- C1 counterexample: for a table in transient mode with
`row_count = 160` the threshold is `16 + 160/16 = 26`, not
`max(16, 160/16) = 16`, and a modification counter of 17 does not
trigger a synchronous transient recompute — the claim's threshold
formula and its concrete consequence are both false on the code. -/
theorem transient_threshold_cex :
    transientThreshold 0 160 = 26
    ∧ ¬ transientThreshold 0 160 = 16
    ∧ (dict_stats_update_if_needed_func 0 false
        ⟨1, true, 17, 160, false, false, true⟩ []).action = UpdAction.noop
    ∧ ¬ (dict_stats_update_if_needed_func 0 false
        ⟨1, true, 17, 160, false, false, true⟩ []).action = UpdAction.syncRecalc := by
  decide

/-- C1 (amended): in transient statistics mode the synchronous-recompute
threshold is `16 + row_count/16`, clamped by the optional nonzero global
override to `min(override, threshold)`; a synchronous transient
recompute happens exactly when the counter exceeds that threshold, and
it resets the counter; the recalc pool is not touched.  For
`row_count = 160` (no override) the threshold is 26, so a counter of 27
triggers the recompute and 26 does not. -/
theorem transient_threshold_update (srv : Nat) (veto : Bool) (t : TableStats)
    (pool : List table_id_t) (hinit : t.stat_initialized = true)
    (hpers : t.persistent_enabled = false) :
    ((dict_stats_update_if_needed_func srv veto t pool).action = UpdAction.syncRecalc
      ↔ t.stat_modified_counter > transientThreshold srv t.n_rows)
    ∧ transientThreshold srv t.n_rows
        = (if srv ≠ 0 then min srv (16 + t.n_rows / 16) else 16 + t.n_rows / 16)
    ∧ transientThreshold 0 160 = 26
    ∧ ((dict_stats_update_if_needed_func srv veto t pool).action = UpdAction.syncRecalc →
        (dict_stats_update_if_needed_func srv veto t pool).table.stat_modified_counter = 0)
    ∧ (dict_stats_update_if_needed_func srv veto t pool).pool = pool := by
  unfold dict_stats_update_if_needed_func
  rw [hinit, hpers]
  refine ⟨?_, rfl, by decide, ?_, ?_⟩
  · by_cases hgt : t.stat_modified_counter > transientThreshold srv t.n_rows
    · simp [hgt]
    · simp [hgt]
  · by_cases hgt : t.stat_modified_counter > transientThreshold srv t.n_rows
    · simp [hgt]
    · simp [hgt]
  · by_cases hgt : t.stat_modified_counter > transientThreshold srv t.n_rows
    · simp [hgt]
    · simp [hgt]

/-- C1 witness: a concrete instance of `transient_threshold_update` — a
counter of 27 at `row_count = 160` is above the threshold 26. -/
theorem transient_threshold_update_witness :
    ((dict_stats_update_if_needed_func 0 false
        ⟨1, true, 27, 160, false, false, true⟩ []).action = UpdAction.syncRecalc
      ↔ (27 : Nat) > transientThreshold 0 160)
    ∧ transientThreshold 0 160
        = (if (0 : Nat) ≠ 0 then min 0 (16 + 160 / 16) else 16 + (160 : Nat) / 16)
    ∧ transientThreshold 0 160 = 26
    ∧ ((dict_stats_update_if_needed_func 0 false
        ⟨1, true, 27, 160, false, false, true⟩ []).action = UpdAction.syncRecalc →
        (dict_stats_update_if_needed_func 0 false
          ⟨1, true, 27, 160, false, false, true⟩ []).table.stat_modified_counter = 0)
    ∧ (dict_stats_update_if_needed_func 0 false
        ⟨1, true, 27, 160, false, false, true⟩ []).pool = [] :=
  transient_threshold_update 0 false ⟨1, true, 27, 160, false, false, true⟩ []
    rfl rfl

/-- C8: in persistent statistics mode the update returns without
enqueuing for a temporary table; for a non-temporary table it calls
`dict_stats_recalc_pool_add` with immediate scheduling allowed and
resets the modification counter to zero exactly when the counter
exceeds `row_count / 10`, auto recalc is enabled, and the replication
suppression check does not veto. -/
theorem update_if_needed_persistent (srv : Nat) (veto : Bool) (t : TableStats)
    (pool : List table_id_t) (hinit : t.stat_initialized = true)
    (hpers : t.persistent_enabled = true) :
    (t.is_temporary = true →
      dict_stats_update_if_needed_func srv veto t pool
        = ⟨{ t with stat_modified_counter := t.stat_modified_counter + 1 },
           pool, UpdAction.noop, false⟩)
    ∧ (t.is_temporary = false →
        ((t.stat_modified_counter > t.n_rows / 10 ∧ t.auto_recalc_enabled = true
            ∧ veto = false) →
          (dict_stats_update_if_needed_func srv veto t pool).action = UpdAction.enqueued
          ∧ (dict_stats_update_if_needed_func srv veto t pool).pool
              = (dict_stats_recalc_pool_add pool t.id true).1
          ∧ (dict_stats_update_if_needed_func srv veto t pool).schedNowFired
              = (dict_stats_recalc_pool_add pool t.id true).2
          ∧ (dict_stats_update_if_needed_func srv veto t pool).table.stat_modified_counter
              = 0)
        ∧ (¬ (t.stat_modified_counter > t.n_rows / 10 ∧ t.auto_recalc_enabled = true
            ∧ veto = false) →
          (dict_stats_update_if_needed_func srv veto t pool).action ≠ UpdAction.enqueued
          ∧ (dict_stats_update_if_needed_func srv veto t pool).pool = pool
          ∧ (dict_stats_update_if_needed_func srv veto t pool).table.stat_modified_counter
              = t.stat_modified_counter + 1)) := by
  unfold dict_stats_update_if_needed_func
  rw [hinit, hpers]
  constructor
  · intro htmp
    rw [htmp]
    simp
  · intro htmp
    rw [htmp]
    constructor
    · rintro ⟨hgt, hauto, hveto⟩
      rw [hveto]
      simp [hgt, hauto]
    · intro hneg
      by_cases hcond : t.stat_modified_counter > t.n_rows / 10 ∧ t.auto_recalc_enabled = true
      · have hveto : veto = true := by
          rcases hcond with ⟨h1, h2⟩
          cases hv : veto with
          | false => exact absurd ⟨h1, h2, hv⟩ hneg
          | true => rfl
        rw [hveto]
        simp [hcond]
      · simp [hcond]

/-- C8 witness: a concrete instance of `update_if_needed_persistent` — a
non-temporary persistent table with 100 rows and counter 11 is enqueued
with the counter reset. -/
theorem update_if_needed_persistent_witness :
    ((⟨2, true, 11, 100, false, true, true⟩ : TableStats).is_temporary = true →
      dict_stats_update_if_needed_func 0 false ⟨2, true, 11, 100, false, true, true⟩ [9]
        = ⟨{ (⟨2, true, 11, 100, false, true, true⟩ : TableStats) with
             stat_modified_counter := 11 + 1 }, [9], UpdAction.noop, false⟩)
    ∧ ((⟨2, true, 11, 100, false, true, true⟩ : TableStats).is_temporary = false →
        (((11 : Nat) > 100 / 10 ∧ true = true ∧ false = false) →
          (dict_stats_update_if_needed_func 0 false
            ⟨2, true, 11, 100, false, true, true⟩ [9]).action = UpdAction.enqueued
          ∧ (dict_stats_update_if_needed_func 0 false
              ⟨2, true, 11, 100, false, true, true⟩ [9]).pool
              = (dict_stats_recalc_pool_add [9] 2 true).1
          ∧ (dict_stats_update_if_needed_func 0 false
              ⟨2, true, 11, 100, false, true, true⟩ [9]).schedNowFired
              = (dict_stats_recalc_pool_add [9] 2 true).2
          ∧ (dict_stats_update_if_needed_func 0 false
              ⟨2, true, 11, 100, false, true, true⟩ [9]).table.stat_modified_counter = 0)
        ∧ (¬ ((11 : Nat) > 100 / 10 ∧ true = true ∧ false = false) →
          (dict_stats_update_if_needed_func 0 false
            ⟨2, true, 11, 100, false, true, true⟩ [9]).action ≠ UpdAction.enqueued
          ∧ (dict_stats_update_if_needed_func 0 false
              ⟨2, true, 11, 100, false, true, true⟩ [9]).pool = [9]
          ∧ (dict_stats_update_if_needed_func 0 false
              ⟨2, true, 11, 100, false, true, true⟩ [9]).table.stat_modified_counter
              = 11 + 1)) :=
  update_if_needed_persistent 0 false ⟨2, true, 11, 100, false, true, true⟩ [9] rfl rfl

/-- C2 counterexample: with one pool entry whose table resolves, is
accessible, and was recalculated just now (so the minimum-interval
check fails), the worker loop makes exactly one pass, re-enqueues the
entry, and stops with the pool still non-empty — it does not perform
another pass, contrary to the claim. -/
theorem dict_stats_func_throttle_stop_cex :
    dict_stats_func ⟨fun _ => some ⟨true, 100⟩, 100⟩ [1] = ⟨[1], [], 1⟩
    ∧ ([1] : List table_id_t) ≠ [] := by
  refine ⟨?_, by decide⟩
  rw [dict_stats_func]
  norm_num [dict_stats_process_entry_from_recalc_pool,
    dict_stats_recalc_pool_add, MIN_RECALC_INTERVAL]

/-- C2 (amended): the worker loop repeats the per-entry pass only while
the pass returns `true` (an entry was recomputed); a pass that returns
`false` — because the pool drained, or because its entry was re-enqueued
by the minimum-interval check — ends the loop after that single pass
even when the pool is non-empty, leaving resumption to the reschedule
the pass requested. -/
theorem dict_stats_func_stops_when_pass_false (env : Env)
    (pool : List table_id_t)
    (h : (dict_stats_process_entry_from_recalc_pool env pool).ret = false) :
    dict_stats_func env pool
      = ⟨(dict_stats_process_entry_from_recalc_pool env pool).pool,
         (dict_stats_process_entry_from_recalc_pool env pool).recomputed.toList,
         1⟩ := by
  rw [dict_stats_func]
  simp [h]

/-- C2 witness: a concrete instance of
`dict_stats_func_stops_when_pass_false` — an entry that does not resolve
is discarded, the pass returns `false`, and the loop stops after one
pass. -/
theorem dict_stats_func_stops_when_pass_false_witness :
    dict_stats_func ⟨fun _ => none, 0⟩ [5]
      = ⟨(dict_stats_process_entry_from_recalc_pool ⟨fun _ => none, 0⟩ [5]).pool,
         (dict_stats_process_entry_from_recalc_pool
           ⟨fun _ => none, 0⟩ [5]).recomputed.toList,
         1⟩ :=
  dict_stats_func_stops_when_pass_false ⟨fun _ => none, 0⟩ [5] rfl

/-- A re-add with `schedule_dict_stats_task = false` never fires
`dict_stats_schedule_now`. -/
theorem recalc_pool_add_false_no_schedule (pool : List table_id_t)
    (id : table_id_t) :
    (dict_stats_recalc_pool_add pool id false).2 = false := by
  unfold dict_stats_recalc_pool_add
  by_cases hmem : id ∈ pool
  · simp [hmem]
  · simp [hmem]

/-- C6: a pool entry whose table resolves and is accessible but whose
elapsed time since the last recalculation is below the 10-second
minimum interval is not recomputed and not dropped: it is re-enqueued
with immediate scheduling suppressed, and a reschedule after
`MIN_RECALC_INTERVAL * 1000` milliseconds is requested, so the
throttled id remains in the pool. -/
theorem worker_throttled_entry_kept (env : Env) (id : table_id_t)
    (rest : List table_id_t) (t : TableInfo)
    (hres : env.resolve id = some t) (hacc : t.accessible = true)
    (hthr : env.now - t.stats_last_recalc < MIN_RECALC_INTERVAL) :
    (dict_stats_process_entry_from_recalc_pool env (id :: rest)).recomputed = none
    ∧ id ∈ (dict_stats_process_entry_from_recalc_pool env (id :: rest)).pool
    ∧ (dict_stats_process_entry_from_recalc_pool env (id :: rest)).requeued
        = some id
    ∧ (dict_stats_process_entry_from_recalc_pool env (id :: rest)).scheduleMs
        = some (MIN_RECALC_INTERVAL * 1000)
    ∧ (dict_stats_process_entry_from_recalc_pool env (id :: rest)).schedNow
        = false
    ∧ (dict_stats_process_entry_from_recalc_pool env (id :: rest)).ret = false := by
  have hpass : dict_stats_process_entry_from_recalc_pool env (id :: rest)
      = ⟨false, (dict_stats_recalc_pool_add rest id false).1, none, some id,
         some (MIN_RECALC_INTERVAL * 1000),
         (dict_stats_recalc_pool_add rest id false).2⟩ := by
    rw [dict_stats_process_entry_from_recalc_pool, hres]
    dsimp only
    rw [if_neg (by rw [hacc]; exact fun h => Bool.noConfusion h), if_pos hthr]
  rw [hpass]
  exact ⟨rfl, mem_recalc_pool_add_self rest id false, rfl, rfl,
    recalc_pool_add_false_no_schedule rest id, rfl⟩

/-- C6 witness: a concrete instance of `worker_throttled_entry_kept` —
table 3 was recalculated 5 seconds ago. -/
theorem worker_throttled_entry_kept_witness :
    (dict_stats_process_entry_from_recalc_pool
        ⟨fun n => if n = 3 then some ⟨true, 50⟩ else none, 55⟩ [3, 8]).recomputed
      = none
    ∧ 3 ∈ (dict_stats_process_entry_from_recalc_pool
        ⟨fun n => if n = 3 then some ⟨true, 50⟩ else none, 55⟩ [3, 8]).pool
    ∧ (dict_stats_process_entry_from_recalc_pool
        ⟨fun n => if n = 3 then some ⟨true, 50⟩ else none, 55⟩ [3, 8]).requeued
      = some 3
    ∧ (dict_stats_process_entry_from_recalc_pool
        ⟨fun n => if n = 3 then some ⟨true, 50⟩ else none, 55⟩ [3, 8]).scheduleMs
      = some (MIN_RECALC_INTERVAL * 1000)
    ∧ (dict_stats_process_entry_from_recalc_pool
        ⟨fun n => if n = 3 then some ⟨true, 50⟩ else none, 55⟩ [3, 8]).schedNow
      = false
    ∧ (dict_stats_process_entry_from_recalc_pool
        ⟨fun n => if n = 3 then some ⟨true, 50⟩ else none, 55⟩ [3, 8]).ret
      = false :=
  worker_throttled_entry_kept
    ⟨fun n => if n = 3 then some ⟨true, 50⟩ else none, 55⟩ 3 [8] ⟨true, 50⟩
    (by decide) rfl (by decide)

/-- Everything the pass leaves in the pool, recomputes, or re-enqueues
came from the pool it was given. -/
theorem process_entry_mem_sources (env : Env) :
    ∀ pool : List table_id_t,
      (∀ x ∈ (dict_stats_process_entry_from_recalc_pool env pool).pool, x ∈ pool)
      ∧ (∀ x, (dict_stats_process_entry_from_recalc_pool env pool).recomputed
            = some x → x ∈ pool)
      ∧ (∀ x, (dict_stats_process_entry_from_recalc_pool env pool).requeued
            = some x → x ∈ pool) := by
  intro pool
  induction pool with
  | nil => simp [dict_stats_process_entry_from_recalc_pool]
  | cons id rest ih =>
    rw [dict_stats_process_entry_from_recalc_pool]
    obtain ⟨ih1, ih2, ih3⟩ := ih
    cases hres : env.resolve id with
    | none =>
      dsimp only
      exact ⟨fun x hx => List.mem_cons_of_mem id (ih1 x hx),
             fun x hx => List.mem_cons_of_mem id (ih2 x hx),
             fun x hx => List.mem_cons_of_mem id (ih3 x hx)⟩
    | some t =>
      dsimp only
      by_cases hacc : t.accessible = false
      · rw [if_pos hacc]
        exact ⟨fun x hx => List.mem_cons_of_mem id (ih1 x hx),
               fun x hx => List.mem_cons_of_mem id (ih2 x hx),
               fun x hx => List.mem_cons_of_mem id (ih3 x hx)⟩
      · rw [if_neg hacc]
        by_cases hthr : env.now - t.stats_last_recalc < MIN_RECALC_INTERVAL
        · rw [if_pos hthr]
          refine ⟨fun x hx => ?_, fun x hx => by simp at hx, fun x hx => ?_⟩
          · rcases mem_recalc_pool_add rest id x false hx with h | h
            · exact h ▸ List.mem_cons_self id rest
            · exact List.mem_cons_of_mem id h
          · have : x = id := by simpa using hx.symm
            exact this ▸ List.mem_cons_self id rest
        · rw [if_neg hthr]
          refine ⟨fun x hx => List.mem_cons_of_mem id hx,
                  fun x hx => ?_, fun x hx => by simp at hx⟩
          have : x = id := by simpa using hx.symm
          exact this ▸ List.mem_cons_self id rest

/-- C7: a pool entry whose id does not resolve, or whose table is
inaccessible, is silently discarded: the pass behaves exactly as it
would on the rest of the pool — nothing is recomputed or re-enqueued
for that id and (when the id is not duplicated further down) it is gone
from the pool the pass leaves behind. -/
theorem worker_dead_entry_skipped (env : Env) (id : table_id_t)
    (rest : List table_id_t)
    (hdead : env.resolve id = none
      ∨ ∃ t, env.resolve id = some t ∧ t.accessible = false) :
    dict_stats_process_entry_from_recalc_pool env (id :: rest)
      = dict_stats_process_entry_from_recalc_pool env rest
    ∧ (id ∉ rest →
        id ∉ (dict_stats_process_entry_from_recalc_pool env (id :: rest)).pool
        ∧ (dict_stats_process_entry_from_recalc_pool env (id :: rest)).recomputed
            ≠ some id
        ∧ (dict_stats_process_entry_from_recalc_pool env (id :: rest)).requeued
            ≠ some id) := by
  have heq : dict_stats_process_entry_from_recalc_pool env (id :: rest)
      = dict_stats_process_entry_from_recalc_pool env rest := by
    rcases hdead with hnone | ⟨t, hsome, hacc⟩
    · rw [dict_stats_process_entry_from_recalc_pool, hnone]
    · rw [dict_stats_process_entry_from_recalc_pool, hsome]
      dsimp only
      rw [if_pos hacc]
  refine ⟨heq, fun hnm => ?_⟩
  rw [heq]
  obtain ⟨h1, h2, h3⟩ := process_entry_mem_sources env rest
  exact ⟨fun hx => hnm (h1 id hx),
         fun hx => hnm (h2 id hx),
         fun hx => hnm (h3 id hx)⟩

/-- C7 witness: a concrete instance of `worker_dead_entry_skipped` —
id 4 does not resolve, and the pass carries on with the pool `[6]`. -/
theorem worker_dead_entry_skipped_witness :
    dict_stats_process_entry_from_recalc_pool
        ⟨fun n => if n = 6 then some ⟨true, 0⟩ else none, 100⟩ [4, 6]
      = dict_stats_process_entry_from_recalc_pool
        ⟨fun n => if n = 6 then some ⟨true, 0⟩ else none, 100⟩ [6]
    ∧ ((4 : table_id_t) ∉ [6] →
        (4 : table_id_t) ∉ (dict_stats_process_entry_from_recalc_pool
          ⟨fun n => if n = 6 then some ⟨true, 0⟩ else none, 100⟩ [4, 6]).pool
        ∧ (dict_stats_process_entry_from_recalc_pool
            ⟨fun n => if n = 6 then some ⟨true, 0⟩ else none, 100⟩ [4, 6]).recomputed
            ≠ some 4
        ∧ (dict_stats_process_entry_from_recalc_pool
            ⟨fun n => if n = 6 then some ⟨true, 0⟩ else none, 100⟩ [4, 6]).requeued
            ≠ some 4) :=
  worker_dead_entry_skipped
    ⟨fun n => if n = 6 then some ⟨true, 0⟩ else none, 100⟩ 4 [6]
    (Or.inl (by decide))

/-- C9: the lifecycle boundaries are idempotent — a second
`dict_stats_start` changes nothing (and creates no new timer),
`dict_stats_shutdown` with no timer in existence is a no-op,
`dict_stats_deinit` is a no-op when not initialized, and otherwise
clears both pools and marks the subsystem uninitialized so that a
second `dict_stats_deinit` is a no-op. -/
theorem dict_stats_lifecycle_idempotent (s u v : LifecycleState)
    (hst : s.timer = false) (hsi : s.stats_initialised = false)
    (hvi : v.stats_initialised = true) :
    dict_stats_start (dict_stats_start u) = dict_stats_start u
    ∧ dict_stats_shutdown s = s
    ∧ dict_stats_deinit s = s
    ∧ (dict_stats_deinit v).recalc_pool = []
    ∧ (dict_stats_deinit v).defrag_pool = []
    ∧ (dict_stats_deinit v).stats_initialised = false
    ∧ dict_stats_deinit (dict_stats_deinit v) = dict_stats_deinit v := by
  refine ⟨?_, ?_, ?_, ?_, ?_, ?_, ?_⟩
  · by_cases h : u.timer = true
    · simp [dict_stats_start, h]
    · simp [dict_stats_start, h]
  · cases s
    simp_all [dict_stats_shutdown]
  · simp [dict_stats_deinit, hsi]
  · simp [dict_stats_deinit, dict_stats_recalc_pool_deinit, hvi]
  · simp [dict_stats_deinit, dict_stats_recalc_pool_deinit, hvi]
  · simp [dict_stats_deinit, dict_stats_recalc_pool_deinit, hvi]
  · simp [dict_stats_deinit, dict_stats_recalc_pool_deinit, hvi]

/-- C9 witness: a concrete instance of `dict_stats_lifecycle_idempotent`. -/
theorem dict_stats_lifecycle_idempotent_witness :
    dict_stats_start (dict_stats_start ⟨false, 0, true, [1], []⟩)
      = dict_stats_start ⟨false, 0, true, [1], []⟩
    ∧ dict_stats_shutdown ⟨false, 0, false, [], []⟩ = ⟨false, 0, false, [], []⟩
    ∧ dict_stats_deinit ⟨false, 0, false, [], []⟩ = ⟨false, 0, false, [], []⟩
    ∧ (dict_stats_deinit ⟨true, 1, true, [2], [3]⟩).recalc_pool = []
    ∧ (dict_stats_deinit ⟨true, 1, true, [2], [3]⟩).defrag_pool = []
    ∧ (dict_stats_deinit ⟨true, 1, true, [2], [3]⟩).stats_initialised = false
    ∧ dict_stats_deinit (dict_stats_deinit ⟨true, 1, true, [2], [3]⟩)
        = dict_stats_deinit ⟨true, 1, true, [2], [3]⟩ :=
  dict_stats_lifecycle_idempotent ⟨false, 0, false, [], []⟩
    ⟨false, 0, true, [1], []⟩ ⟨true, 1, true, [2], [3]⟩ rfl rfl rfl
